import Mathlib

/-!
Verification of the speechcraft analysis server (`app.js`).

The development shallowly embeds the request-orchestration pipeline of the
`POST /analyze-speech` handler, the critique-parsing of the generation output
(the two regular expressions of lines 156-157), the error classification of the
catch block (lines 234-252), the preview construction (lines 211-219), and the
in-memory result store with its one-shot expiry timer (lines 202-207, 49-75).

Text is modelled as `List Char`.  The two regular expressions of the source,

  aiText.match(/Feedback:\s*([\s\S]*?)(?=\nCorrected:|$)/i)
  aiText.match(/Corrected:\s*([\s\S]*?)$/i)

are embedded by unfolding their (deterministic) matching behaviour: the first
match starts at the leftmost case-insensitive occurrence of the literal marker,
the greedy \s* then consumes the maximal whitespace run, and the lazy group
extends to the first position where the lookahead succeeds (for the first
regex: a newline immediately followed by a case-insensitive "Corrected:", or
end of input; for the second regex: end of input only, since $ without the m
flag anchors at end of input).
-/

namespace SpeechCraft

/-- Whitespace test used by the source both in the regex class \s and in
String.prototype.trim, restricted to the code points relevant here:
space, tab, line feed, vertical tab, form feed, carriage return and
no-break space. -/
def isWs (c : Char) : Bool :=
  c.toNat == 32 || c.toNat == 9 || c.toNat == 10 || c.toNat == 11 ||
  c.toNat == 12 || c.toNat == 13 || c.toNat == 160

/-- Line feed character. -/
def nlChar : Char := Char.ofNat 10

/-- Case folding used to model the /i regex flag and toLowerCase(). -/
def lower (s : List Char) : List Char := s.map Char.toLower

/-- Model of String.prototype.trim: remove whitespace from both ends. -/
def trim (s : List Char) : List Char :=
  (((s.dropWhile isWs).reverse).dropWhile isWs).reverse

/-- Index of the first occurrence of `pat` as a contiguous block of `hay`,
if any.  Models the leftmost-match rule of the JS regex engine for a literal
pattern. -/
def findSub? : List Char → List Char → Option Nat
  | [], pat => if pat.isPrefixOf ([] : List Char) then some 0 else none
  | h :: t, pat =>
    if pat.isPrefixOf (h :: t) then some 0 else (findSub? t pat).map (· + 1)

/-- Whether `pat` occurs as a contiguous block of `hay`. -/
def containsSub (hay pat : List Char) : Bool := (findSub? hay pat).isSome

/-- Lower-cased form of the literal of the first regex marker. -/
def fbPat : List Char := "feedback:".toList

/-- Lower-cased form of the literal of the second regex marker. -/
def ctPat : List Char := "corrected:".toList

/-- Lower-cased form of the lookahead literal \nCorrected: . -/
def nlCtPat : List Char := nlChar :: ctPat

/-- Fallback feedback string of line 153 of the source. -/
def feedbackDefault : List Char := "No specific feedback generated.".toList

/-- The two parsed fields produced by lines 152-160 of the source. -/
structure Critique where
  feedback : List Char
  correctedText : List Char
  deriving DecidableEq, Repr

/-- Model of lines 152-160 of the source: run both regexes on the generation
output, trim the captures, and apply the fallbacks (the fixed default string
for `feedback`, the original transcript for `correctedText`). -/
def parseCritique (aiText transcript : List Char) : Critique :=
  let feedback :=
    match findSub? (lower aiText) fbPat with
    | none => feedbackDefault
    | some i =>
      let body := (aiText.drop (i + fbPat.length)).dropWhile isWs
      let stop :=
        match findSub? (lower body) nlCtPat with
        | none => body.length
        | some k => k
      trim (body.take stop)
  let correctedText :=
    match findSub? (lower aiText) ctPat with
    | none => transcript
    | some j => trim ((aiText.drop (j + ctPat.length)).dropWhile isWs)
  ⟨feedback, correctedText⟩

example :
    parseCritique "Feedback: Watch subject-verb agreement and past tense.\nCorrected: He went to school yesterday.".toList "he go to school yesterday".toList =
      ⟨"Watch subject-verb agreement and past tense.".toList,
       "He went to school yesterday.".toList⟩ := by decide

example :
    parseCritique "no markers at all".toList "t".toList =
      ⟨feedbackDefault, "t".toList⟩ := by decide

example :
    (parseCritique "Feedback: a Corrected: b".toList "t".toList).feedback =
      "a Corrected: b".toList := by decide

example :
    (parseCritique "Feedback: ok\nCorrected:".toList "t".toList) =
      ⟨"ok".toList, []⟩ := by decide

/-! Preview, record, response (lines 193-219 of the source) -/

/-- The preview object of the 200 response (lines 215-218). -/
structure Preview where
  transcriptPreview : List Char
  hasCorrections : Bool
  deriving DecidableEq, Repr

/-- Model of lines 215-218: truncate the transcript to 100 characters with an
ellipsis when longer, and compare corrected text against the transcript
case-insensitively. -/
def mkPreview (transcript correctedText : List Char) : Preview :=
  { transcriptPreview :=
      transcript.take 100 ++ (if 100 < transcript.length then "...".toList else []),
    hasCorrections := lower correctedText != lower transcript }

/-- The stored analysis result object built at lines 193-200. -/
structure ResultRecord where
  id : List Char
  transcript : List Char
  feedback : List Char
  correctedText : List Char
  audio : List Char
  timestamp : Nat
  deriving DecidableEq, Repr

/-- In-memory result map (the analysisResults Map of line 32); the most
recent insertion sits at the head, matching Map.get via the first binding. -/
abbrev Store := List (List Char × ResultRecord)

/-- Error object reaching the catch block: the fields the classifier of
lines 234-252 inspects (error.code, error.message, error.response?.status). -/
structure JsError where
  code : Option (List Char)
  message : List Char
  responseStatus : Option Nat
  deriving DecidableEq, Repr

/-- The response sent by the handler; one constructor per res.status().json()
site of the source. -/
inductive Response where
  | noFile
  | noSpeech
  | ok (analysisId : List Char) (preview : Preview)
  | timedOut
  | authFailed
  | analysisFailed (details : Option (List Char))
  deriving DecidableEq, Repr

/-- HTTP status of each response site. -/
def Response.status : Response → Nat
  | .noFile => 400
  | .noSpeech => 400
  | .ok _ _ => 200
  | .timedOut => 408
  | .authFailed => 500
  | .analysisFailed _ => 500

/-- The error field of each JSON error body (empty for the success body,
which has no error field). -/
def Response.errorCode : Response → List Char
  | .noFile => "No audio file uploaded".toList
  | .noSpeech => "No speech detected".toList
  | .ok _ _ => []
  | .timedOut => "Request timeout".toList
  | .authFailed => "API authentication failed".toList
  | .analysisFailed _ => "Analysis failed".toList

/-- NODE_ENV value that attaches raw error details (line 251). -/
def devEnv : List Char := "development".toList

/-- Timeout test of line 234: error.code === ECONNABORTED or the message
contains the substring timeout. -/
def isTimeoutError (e : JsError) : Bool :=
  e.code == some ("ECONNABORTED".toList) || containsSub e.message ("timeout".toList)

/-- Model of the catch-block classifier of lines 234-252. -/
def classifyCatch (e : JsError) (nodeEnv : List Char) : Response :=
  if isTimeoutError e then .timedOut
  else if e.responseStatus == some 401 then .authFailed
  else .analysisFailed (if nodeEnv == devEnv then some e.message else none)

/-! The analyze pipeline (lines 78-254 of the source)

External calls are modelled by their outcomes, supplied as `Except` fields of
the input: the transcription call (Deepgram request plus the optional-chain
extraction of line 113), the generation call (Gemini request plus the
empty-string default applied to the extracted text at line 149), the text-to-speech save callback and
the read-back of the synthesized file.  The disk is the list of paths
currently present; the uploaded file is on it when the handler starts. -/

structure UploadedFile where
  filePath : List Char
  deriving DecidableEq, Repr

structure PipelineInput where
  file : Option UploadedFile
  transcription : Except JsError (Option (List Char))
  generation : Except JsError (Option (List Char))
  ttsSave : Except JsError Unit
  readSynth : Except JsError (List Char)
  nodeEnv : List Char
  now : Nat
  rand : List Char

/-- Analysis id of line 169: analysis_ then Date.now() then _ then the
random suffix. -/
def mkAnalysisId (now : Nat) (rand : List Char) : List Char :=
  "analysis_".toList ++ (Nat.repr now).toList ++ "_".toList ++ rand

/-- Path of the transient synthesized audio file (line 170). -/
def synthPath (analysisId : List Char) : List Char :=
  "temp/speech_".toList ++ analysisId ++ ".mp3".toList

/-- Base64 rendering of the synthesized bytes (line 185).  The encoding is a
collaborator detail; only the produced string travels into the record. -/
def bufferToBase64 (bytes : List Char) : List Char := bytes

/-- Model of fs.unlink: remove a path from the disk. -/
def removeFile (disk : List (List Char)) (p : List Char) : List (List Char) :=
  disk.filter (fun q => q != p)

/-- Outcome of one handler run: the response, the result map and the set of
files still on disk. -/
structure RunResult where
  resp : Response
  store : Store
  disk : List (List Char)

/-- Model of the POST /analyze-speech handler body (lines 78-254).  Stage
failures jump to the catch block, which classifies the error and unlinks the
uploaded file (and only the uploaded file).  The success path unlinks the
upload after transcription (line 111), creates the synthesized file, reads it
back, unlinks it (line 188), stores the record and answers 200. -/
def runAnalyze (inp : PipelineInput) (store : Store) (disk : List (List Char)) :
    RunResult :=
  match inp.file with
  | none => ⟨.noFile, store, disk⟩
  | some f =>
    match inp.transcription with
    | .error e => ⟨classifyCatch e inp.nodeEnv, store, removeFile disk f.filePath⟩
    | .ok tOpt =>
      let disk1 := removeFile disk f.filePath
      match tOpt with
      | none => ⟨.noSpeech, store, disk1⟩
      | some t =>
        if trim t = ([] : List Char) then ⟨.noSpeech, store, disk1⟩
        else
          match inp.generation with
          | .error e => ⟨classifyCatch e inp.nodeEnv, store, removeFile disk1 f.filePath⟩
          | .ok aiOpt =>
            let aiText := aiOpt.getD []
            let crit := parseCritique aiText t
            let analysisId := mkAnalysisId inp.now inp.rand
            let cpath := synthPath analysisId
            match inp.ttsSave with
            | .error e => ⟨classifyCatch e inp.nodeEnv, store, removeFile disk1 f.filePath⟩
            | .ok _ =>
              let disk2 := cpath :: disk1
              match inp.readSynth with
              | .error e =>
                ⟨classifyCatch e inp.nodeEnv, store, removeFile disk2 f.filePath⟩
              | .ok audioBytes =>
                let disk3 := removeFile disk2 cpath
                let record : ResultRecord :=
                  { id := analysisId
                    transcript := t
                    feedback := crit.feedback
                    correctedText := crit.correctedText
                    audio := bufferToBase64 audioBytes
                    timestamp := inp.now }
                ⟨.ok analysisId (mkPreview t crit.correctedText),
                  (analysisId, record) :: store, disk3⟩

/-! The timed result store (lines 202-207, 49-58, 61-75)

`Map.set` plus a one-shot `setTimeout` deleting the entry after 3600000 ms is
embedded as a store paired with a list of pending deletion timers.  A probe at
wall-clock time `t` observes the store after every timer due at or before `t`
has fired; probes strictly before a deadline observe the entry untouched. -/

structure PendingTimer where
  key : List Char
  dueAt : Nat
  deriving DecidableEq, Repr

structure TimedStore where
  entries : Store
  timers : List PendingTimer

/-- Retention window of line 207, in milliseconds. -/
def retentionMs : Nat := 3600000

/-- Model of lines 202-207: insert the record and schedule its one-shot
deletion timer for one hour from now. -/
def storePut (s : TimedStore) (id : List Char) (rec : ResultRecord) (now : Nat) :
    TimedStore :=
  { entries := (id, rec) :: s.entries,
    timers := ⟨id, now + retentionMs⟩ :: s.timers }

/-- Fire every pending timer due at or before `t`: each due timer deletes the
entries carrying its key, and leaves the timer list. -/
def expireDue (s : TimedStore) (t : Nat) : TimedStore :=
  { entries := s.entries.filter
      (fun p => !(s.timers.any (fun tm => tm.key == p.1 && decide (tm.dueAt ≤ t)))),
    timers := s.timers.filter (fun tm => decide (t < tm.dueAt)) }

/-- GET /api/analysis/:id (lines 49-58) probed at time `t`. -/
def getAnalysisAt (s : TimedStore) (t : Nat) (id : List Char) :
    Option ResultRecord :=
  ((expireDue s t).entries).lookup id

/-- GET /api/download/:id (lines 61-75) probed at time `t`; a missing record
or a falsy (empty) audio string answers 404, modelled as none. -/
def getAudioAt (s : TimedStore) (t : Nat) (id : List Char) : Option (List Char) :=
  match ((expireDue s t).entries).lookup id with
  | none => none
  | some r => if r.audio == ([] : List Char) then none else some r.audio

/-! Helper lemmas -/

theorem findSub?_eq_none_iff {hay pat : List Char} :
    findSub? hay pat = none ↔ ¬ pat <:+: hay := by
  induction hay with
  | nil =>
    by_cases h : pat.isPrefixOf ([] : List Char)
    · simp only [findSub?, if_pos h]
      simp only [ List.isPrefixOf_iff_prefix] at h
      have hinf : pat <:+: ([] : List Char) := h.isInfix
      simp [hinf]
    · simp only [findSub?, if_neg h]
      simp only [ List.isPrefixOf_iff_prefix] at h
      have hinf : ¬ pat <:+: ([] : List Char) := by
        intro hc
        rw [List.infix_nil.mp hc] at h
        exact h List.prefix_rfl
      simp [hinf]
  | cons a t ih =>
    by_cases h : pat.isPrefixOf (a :: t)
    · simp only [findSub?, if_pos h]
      simp only [ List.isPrefixOf_iff_prefix] at h
      simp [h.isInfix]
    · simp only [findSub?, if_neg h, Option.map_eq_none']
      simp only [ List.isPrefixOf_iff_prefix] at h
      rw [ih, List.infix_cons_iff]
      constructor
      · intro hn hc
        rcases hc with hc | hc
        · exact h hc
        · exact hn hc
      · intro hn hc
        exact hn (Or.inr hc)

theorem findSub?_of_isPrefixOf {hay pat : List Char} (h : pat.isPrefixOf hay = true) :
    findSub? hay pat = some 0 := by
  cases hay with
  | nil => simp [findSub?, h]
  | cons a t => simp [findSub?, h]

theorem findSub?_append_of_head_notMem {x y pat : List Char} {c : Char}
    (hp : pat.head? = some c) (hx : ∀ a ∈ x, a ≠ c) :
    findSub? (x ++ y) pat = (findSub? y pat).map (· + x.length) := by
  induction x with
  | nil =>
    simp only [List.nil_append, List.length_nil]
    cases findSub? y pat <;> simp
  | cons b tb ih =>
    have hb : b ≠ c := hx b (by simp)
    have hnp : ¬ (pat <+: b :: (tb ++ y)) := by
      cases pat with
      | nil => simp at hp
      | cons pc pt =>
        have hpc : pc = c := by simpa using hp
        rw [List.cons_prefix_cons]
        intro hcon
        exact hb (hpc ▸ hcon.1.symm)
    have ihx : findSub? (tb ++ y) pat = (findSub? y pat).map (· + tb.length) :=
      ih (fun a ha => hx a (by simp [ha]))
    simp only [List.cons_append, findSub?,  List.isPrefixOf_iff_prefix, List.append_eq]
    rw [if_neg hnp, ihx]
    cases findSub? y pat with
    | none => simp
    | some k =>
      simp only [Option.map_some', Option.map_map, Option.some.injEq, Function.comp,
        List.length_cons]
      omega

theorem findSub?_append_marker {x y pat : List Char} {c : Char}
    (hp : pat.head? = some c) (hx : ∀ a ∈ x, a ≠ c)
    (hy : pat.isPrefixOf y = true) :
    findSub? (x ++ y) pat = some x.length := by
  rw [findSub?_append_of_head_notMem hp hx, findSub?_of_isPrefixOf hy]
  simp

theorem findSub?_eq_none_of_head_notMem {hay pat : List Char} {c : Char}
    (hp : pat.head? = some c) (hc : c ∉ hay) : findSub? hay pat = none := by
  rw [findSub?_eq_none_iff]
  intro hinf
  have hcp : c ∈ pat := by
    cases pat with
    | nil => simp at hp
    | cons pc pt =>
      have : pc = c := by simpa using hp
      simp [this]
  exact hc (hinf.sublist.subset hcp)

theorem dropWhile_dropWhile_self {p : Char → Bool} (s : List Char) :
    (s.dropWhile p).dropWhile p = s.dropWhile p := by
  induction s with
  | nil => simp
  | cons a t ih =>
    by_cases h : p a = true
    · simp [List.dropWhile_cons, h, ih]
    · simp [List.dropWhile_cons, h]

theorem trim_dropWhile_ws (s : List Char) : trim (s.dropWhile isWs) = trim s := by
  unfold trim
  rw [dropWhile_dropWhile_self]

theorem trim_ws_append {x y : List Char} (h : ∀ a ∈ x, isWs a = true) :
    trim (x ++ y) = trim y := by
  unfold trim
  rw [List.dropWhile_append_of_pos h]

theorem dropWhile_append_of_exists {p : Char → Bool} {x y : List Char}
    (h : ∃ a ∈ x, p a = false) :
    (x ++ y).dropWhile p = x.dropWhile p ++ y := by
  rw [List.dropWhile_append]
  have hne : ¬ ((x.dropWhile p).isEmpty = true) := by
    rcases h with ⟨a, ha, hpa⟩
    intro hemp
    rw [List.isEmpty_iff] at hemp
    have hpt := List.dropWhile_eq_nil_iff.mp hemp a ha
    simp [hpt] at hpa
  rw [if_neg hne]

theorem toNat_ofNat_of_lt {m : Nat} (h : m < 55296) : (Char.ofNat m).toNat = m := by
  have hv : m.isValidChar := Or.inl h
  rw [Char.ofNat, dif_pos hv]
  simp [Char.ofNatAux, Char.toNat, UInt32.toNat]

theorem toLower_eq_nl {c : Char} (h : Char.toLower c = nlChar) : c = nlChar := by
  by_cases hc : c.toNat ≥ 65 ∧ c.toNat ≤ 90
  · exfalso
    have hlow : Char.toLower c = Char.ofNat (c.toNat + 32) := by
      unfold Char.toLower
      rw [if_pos hc]
    rw [hlow] at h
    have h1 := congrArg Char.toNat h
    rw [toNat_ofNat_of_lt (by omega)] at h1
    have h2 : nlChar.toNat = 10 := by decide
    omega
  · unfold Char.toLower at h
    rw [if_neg hc] at h
    exact h

theorem nl_mem_of_mem_lower {s : List Char} (h : nlChar ∈ lower s) : nlChar ∈ s := by
  rcases List.mem_map.mp h with ⟨c, hc, hlc⟩
  have hcn := toLower_eq_nl hlc
  rw [hcn] at hc
  exact hc

theorem notMem_lower_of_nl_notMem {s : List Char} (h : nlChar ∉ s) :
    ∀ a ∈ lower s, a ≠ nlChar := by
  intro a ha han
  rw [han] at ha
  exact h (nl_mem_of_mem_lower ha)

theorem lookup_eq_none_of_keys {l : Store} {id : List Char}
    (h : ∀ p ∈ l, p.1 ≠ id) : l.lookup id = none := by
  induction l with
  | nil => rfl
  | cons p t ih =>
    cases p with
    | mk k v =>
      have hk : k ≠ id := h (k, v) (by simp)
      have hkb : (id == k) = false := beq_eq_false_iff_ne.mpr (Ne.symm hk)
      simp only [List.lookup, hkb]
      exact ih (fun q hq => h q (by simp [hq]))

/-- Neither branch of the catch-block classifier produces a success response. -/
theorem classifyCatch_ne_ok (e : JsError) (env : List Char) (id : List Char)
    (pv : Preview) : classifyCatch e env ≠ Response.ok id pv := by
  unfold classifyCatch
  split
  · simp
  · split <;> simp

/-- A stage of the pipeline reported a failure. -/
def stageFailed (inp : PipelineInput) : Prop :=
  (∃ e, inp.transcription = Except.error e) ∨
  (∃ e, inp.generation = Except.error e) ∨
  (∃ e, inp.ttsSave = Except.error e) ∨
  (∃ e, inp.readSynth = Except.error e)

/-! Claim theorems -/

/-- C2: for every transcript and generation output, if the output lacks a
case-insensitive Feedback: section then the stored feedback is exactly the
fixed default string, and if it lacks a case-insensitive Corrected: section
then the stored correctedText is the original transcript unchanged. -/
theorem claim2_parse_fallbacks (aiText transcript : List Char) :
    (¬ fbPat <:+: lower aiText →
      (parseCritique aiText transcript).feedback = feedbackDefault) ∧
    (¬ ctPat <:+: lower aiText →
      (parseCritique aiText transcript).correctedText = transcript) := by
  constructor
  · intro h
    have hn : findSub? (lower aiText) fbPat = none := findSub?_eq_none_iff.mpr h
    simp [parseCritique, hn]
  · intro h
    have hn : findSub? (lower aiText) ctPat = none := findSub?_eq_none_iff.mpr h
    simp [parseCritique, hn]

theorem claim2_parse_fallbacks_witness :
    (parseCritique ("hello world".toList) ("t".toList)).feedback = feedbackDefault ∧
    (parseCritique ("hello world".toList) ("t".toList)).correctedText = "t".toList := by
  have h := claim2_parse_fallbacks ("hello world".toList) ("t".toList)
  have hf : ¬ fbPat <:+: lower ("hello world".toList) :=
    findSub?_eq_none_iff.mp (by decide)
  have hc : ¬ ctPat <:+: lower ("hello world".toList) :=
    findSub?_eq_none_iff.mp (by decide)
  exact ⟨h.1 hf, h.2 hc⟩

/-- C4: when any pipeline stage (transcription, generation, synthesis save or
read-back) fails, the handler stores nothing: the result map after the run is
the map before the run. -/
theorem claim4_no_partial_record (inp : PipelineInput) (store : Store)
    (disk : List (List Char)) (h : stageFailed inp) :
    (runAnalyze inp store disk).store = store := by
  rcases hf : inp.file with _ | f
  · simp [runAnalyze, hf]
  rcases htr : inp.transcription with e | tOpt
  · simp [runAnalyze, hf, htr]
  rcases tOpt with _ | t
  · simp [runAnalyze, hf, htr]
  by_cases hemp : trim t = []
  · simp [runAnalyze, hf, htr, hemp]
  rcases hg : inp.generation with e | aiOpt
  · simp [runAnalyze, hf, htr, hemp, hg]
  rcases hs : inp.ttsSave with e | u
  · simp [runAnalyze, hf, htr, hemp, hg, hs]
  rcases hr : inp.readSynth with e | bytes
  · simp [runAnalyze, hf, htr, hemp, hg, hs, hr]
  exfalso
  rcases h with ⟨e, he⟩ | ⟨e, he⟩ | ⟨e, he⟩ | ⟨e, he⟩ <;> simp_all

theorem claim4_no_partial_record_witness :
    (runAnalyze
      { file := some ⟨"uploads/a".toList⟩
        transcription := Except.error ⟨none, "socket hang up".toList, none⟩
        generation := Except.ok (some ("x".toList))
        ttsSave := Except.ok ()
        readSynth := Except.ok ("z".toList)
        nodeEnv := "production".toList
        now := 5
        rand := "r1".toList }
      [] [("uploads/a".toList)]).store = [] := by
  exact claim4_no_partial_record _ [] _ (Or.inl ⟨_, rfl⟩)

/-- C6: when the transcription result is absent, empty or whitespace-only, the
handler answers 400 with the No speech detected error code and stores no
record. -/
theorem claim6_no_speech (inp : PipelineInput) (store : Store)
    (disk : List (List Char)) (f : UploadedFile)
    (hfile : inp.file = some f)
    (hno : inp.transcription = Except.ok none ∨
           ∃ t, inp.transcription = Except.ok (some t) ∧ trim t = []) :
    (runAnalyze inp store disk).resp = Response.noSpeech ∧
    (runAnalyze inp store disk).resp.status = 400 ∧
    (runAnalyze inp store disk).resp.errorCode = "No speech detected".toList ∧
    (runAnalyze inp store disk).store = store := by
  rcases hno with hn | ⟨t, ht, htr⟩
  · simp [runAnalyze, hfile, hn, Response.status, Response.errorCode]
  · simp [runAnalyze, hfile, ht, htr, Response.status, Response.errorCode]

theorem claim6_no_speech_witness :
    (runAnalyze
      { file := some ⟨"uploads/b".toList⟩
        transcription := Except.ok (some ("  ".toList))
        generation := Except.ok none
        ttsSave := Except.ok ()
        readSynth := Except.ok []
        nodeEnv := "production".toList
        now := 9
        rand := "r2".toList }
      [] [("uploads/b".toList)]).resp.status = 400 := by
  exact (claim6_no_speech _ [] _ ⟨"uploads/b".toList⟩ rfl
    (Or.inr ⟨_, rfl, by decide⟩)).2.1

/-- C8: the catch-block classification, in the order the code applies it: a
timeout error answers 408; otherwise an upstream 401 answers 500 with the
fixed generic auth message (which carries nothing from the error object);
every other failure answers 500 with the fixed generic message, raw details
attached exactly when NODE_ENV is development (hence only in a non-production
configuration). -/
theorem claim8_error_classification (e : JsError) (env : List Char) :
    (isTimeoutError e = true →
        classifyCatch e env = Response.timedOut ∧
        (classifyCatch e env).status = 408) ∧
    (isTimeoutError e = false → e.responseStatus = some 401 →
        classifyCatch e env = Response.authFailed ∧
        (classifyCatch e env).status = 500 ∧
        (classifyCatch e env).errorCode = "API authentication failed".toList) ∧
    (isTimeoutError e = false → e.responseStatus ≠ some 401 →
        classifyCatch e env =
          Response.analysisFailed
            (if env == devEnv then some e.message else none) ∧
        (classifyCatch e env).status = 500 ∧
        (classifyCatch e env).errorCode = "Analysis failed".toList) ∧
    (∀ d, classifyCatch e env = Response.analysisFailed (some d) →
        env = devEnv ∧ env ≠ "production".toList) := by
  refine ⟨?_, ?_, ?_, ?_⟩
  · intro h
    simp [classifyCatch, h, Response.status]
  · intro h h4
    have h4b : (e.responseStatus == some 401) = true := beq_iff_eq.mpr h4
    simp [classifyCatch, h, h4b, Response.status, Response.errorCode]
  · intro h h4
    have h4b : (e.responseStatus == some 401) = false := beq_eq_false_iff_ne.mpr h4
    simp [classifyCatch, h, h4b, Response.status, Response.errorCode]
  · intro d hd
    unfold classifyCatch at hd
    by_cases h : isTimeoutError e = true
    · rw [if_pos h] at hd
      cases hd
    · rw [if_neg h] at hd
      by_cases h4 : (e.responseStatus == some 401) = true
      · rw [if_pos h4] at hd
        cases hd
      · rw [if_neg h4] at hd
        by_cases hdev : (env == devEnv) = true
        · refine ⟨beq_iff_eq.mp hdev, ?_⟩
          rw [beq_iff_eq.mp hdev]
          decide
        · rw [if_neg hdev] at hd
          simp at hd

theorem claim8_error_classification_witness :
    classifyCatch ⟨some ("ECONNABORTED".toList), [], none⟩ ("production".toList) =
      Response.timedOut ∧
    classifyCatch ⟨none, "Request failed with status code 401".toList, some 401⟩
        ("production".toList) = Response.authFailed ∧
    classifyCatch ⟨none, "boom".toList, none⟩ ("production".toList) =
      Response.analysisFailed none := by
  refine ⟨?_, ?_, ?_⟩
  · exact ((claim8_error_classification _ _).1 (by decide)).1
  · exact ((claim8_error_classification _ _).2.1 (by decide) (by decide)).1
  · have h := ((claim8_error_classification
      (⟨none, "boom".toList, none⟩ : JsError) ("production".toList)).2.2.1
      (by decide) (by decide)).1
    simpa using h

/-- C9: in the 200 response, preview.hasCorrections is false exactly when the
stored corrected text equals the stored transcript case-insensitively. -/
theorem claim9_has_corrections (inp : PipelineInput) (store : Store)
    (disk : List (List Char)) (id : List Char) (pv : Preview)
    (p : List Char × ResultRecord)
    (hresp : (runAnalyze inp store disk).resp = Response.ok id pv)
    (hhead : (runAnalyze inp store disk).store.head? = some p) :
    (pv.hasCorrections = false ↔ lower p.2.correctedText = lower p.2.transcript) := by
  rcases hf : inp.file with _ | f
  · simp [runAnalyze, hf] at hresp
  rcases htr : inp.transcription with e | tOpt
  · rw [runAnalyze] at hresp
    simp only [hf, htr] at hresp
    exact absurd hresp (classifyCatch_ne_ok e inp.nodeEnv id pv)
  rcases tOpt with _ | t
  · simp [runAnalyze, hf, htr] at hresp
  by_cases hemp : trim t = []
  · simp [runAnalyze, hf, htr, hemp] at hresp
  rcases hg : inp.generation with e | aiOpt
  · rw [runAnalyze] at hresp
    simp only [hf, htr, hg, if_neg hemp] at hresp
    exact absurd hresp (classifyCatch_ne_ok e inp.nodeEnv id pv)
  rcases hs : inp.ttsSave with e | u
  · rw [runAnalyze] at hresp
    simp only [hf, htr, hg, hs, if_neg hemp] at hresp
    exact absurd hresp (classifyCatch_ne_ok e inp.nodeEnv id pv)
  rcases hr : inp.readSynth with e | bytes
  · rw [runAnalyze] at hresp
    simp only [hf, htr, hg, hs, hr, if_neg hemp] at hresp
    exact absurd hresp (classifyCatch_ne_ok e inp.nodeEnv id pv)
  rw [runAnalyze] at hresp hhead
  simp only [hf, htr, hg, hs, hr, if_neg hemp] at hresp hhead
  have hpv : pv = mkPreview t (parseCritique (aiOpt.getD []) t).correctedText := by
    cases hresp
    rfl
  have hp : p.2.correctedText = (parseCritique (aiOpt.getD []) t).correctedText ∧
      p.2.transcript = t := by
    cases hhead
    exact ⟨rfl, rfl⟩
  rw [hpv, hp.1, hp.2]
  simp only [mkPreview]
  exact bne_eq_false_iff_eq

theorem claim9_has_corrections_witness :
    ((mkPreview ("he go".toList) ("He goes.".toList)).hasCorrections = false ↔
      lower ("He goes.".toList) = lower ("he go".toList)) := by
  have h := claim9_has_corrections
    { file := some ⟨"uploads/c".toList⟩
      transcription := Except.ok (some ("he go".toList))
      generation := Except.ok (some ("Feedback: tense.\nCorrected: He goes.".toList))
      ttsSave := Except.ok ()
      readSynth := Except.ok ("AUDIO".toList)
      nodeEnv := "production".toList
      now := 3
      rand := "zz".toList }
    [] [("uploads/c".toList)]
    (mkAnalysisId 3 ("zz".toList))
    (mkPreview ("he go".toList) ("He goes.".toList))
    (mkAnalysisId 3 ("zz".toList),
      { id := mkAnalysisId 3 ("zz".toList)
        transcript := "he go".toList
        feedback := "tense.".toList
        correctedText := "He goes.".toList
        audio := "AUDIO".toList
        timestamp := 3 })
    (by decide) (by decide)
  simpa using h

/-- The catch-block classifier never answers 200. -/
theorem classifyCatch_status_ne (e : JsError) (env : List Char) :
    (classifyCatch e env).status ≠ 200 := by
  unfold classifyCatch
  split
  · simp [Response.status]
  · split <;> simp [Response.status]

/-- Unlinking a path removes every copy of it from the disk. -/
theorem notMem_removeFile_self (d : List (List Char)) (p : List Char) :
    p ∉ removeFile d p := by
  intro h
  have hb := List.of_mem_filter h
  simp at hb

/-- C3 fails on the code: a successful run whose generation output ends at the
Corrected: marker stores a record with an empty correctedText, because the
transcript fallback fires only when the marker is absent, not when the
capture after it is blank. -/
theorem claim3_counterexample :
    (runAnalyze
      { file := some ⟨"uploads/d".toList⟩
        transcription := Except.ok (some ("hello".toList))
        generation := Except.ok (some ("Feedback: ok\nCorrected:".toList))
        ttsSave := Except.ok ()
        readSynth := Except.ok ("AUDIO".toList)
        nodeEnv := "production".toList
        now := 7
        rand := "r3".toList }
      [] [("uploads/d".toList)]).resp.status = 200 ∧
    ((runAnalyze
      { file := some ⟨"uploads/d".toList⟩
        transcription := Except.ok (some ("hello".toList))
        generation := Except.ok (some ("Feedback: ok\nCorrected:".toList))
        ttsSave := Except.ok ()
        readSynth := Except.ok ("AUDIO".toList)
        nodeEnv := "production".toList
        now := 7
        rand := "r3".toList }
      [] [("uploads/d".toList)]).store.map (fun p => p.2.correctedText)) =
      [([] : List Char)] := by
  decide

/-- C3 amended: every record inserted by a successful run whose generation
output lacks a case-insensitive Corrected: marker has a non-empty
correctedText (the fallback hands it the transcript, which passed the
non-emptiness check). -/
theorem claim3_amended_nonempty_corrected (inp : PipelineInput) (store : Store)
    (disk : List (List Char)) (ao : Option (List Char))
    (hgen : inp.generation = Except.ok ao)
    (hmark : ¬ ctPat <:+: lower (ao.getD []))
    (hstat : (runAnalyze inp store disk).resp.status = 200) :
    ∀ p ∈ (runAnalyze inp store disk).store, p ∈ store ∨ p.2.correctedText ≠ [] := by
  rcases hf : inp.file with _ | f
  · simp [runAnalyze, hf, Response.status] at hstat
  rcases htr : inp.transcription with e | tOpt
  · rw [runAnalyze] at hstat
    simp only [hf, htr] at hstat
    exact absurd hstat (classifyCatch_status_ne e inp.nodeEnv)
  rcases tOpt with _ | t
  · simp [runAnalyze, hf, htr, Response.status] at hstat
  by_cases hemp : trim t = []
  · simp [runAnalyze, hf, htr, hemp, Response.status] at hstat
  rcases hs : inp.ttsSave with e | u
  · rw [runAnalyze] at hstat
    simp only [hf, htr, hgen, hs, if_neg hemp] at hstat
    exact absurd hstat (classifyCatch_status_ne e inp.nodeEnv)
  rcases hr : inp.readSynth with e | bytes
  · rw [runAnalyze] at hstat
    simp only [hf, htr, hgen, hs, hr, if_neg hemp] at hstat
    exact absurd hstat (classifyCatch_status_ne e inp.nodeEnv)
  have hnone : findSub? (lower (ao.getD [])) ctPat = none := findSub?_eq_none_iff.mpr hmark
  have htne : t ≠ [] := by
    intro h0
    rw [h0] at hemp
    exact hemp (by decide)
  intro p hp
  rw [runAnalyze] at hp
  simp only [hf, htr, hgen, hs, hr, if_neg hemp] at hp
  rcases List.mem_cons.mp hp with hp | hp
  · right
    rw [hp]
    simp only [parseCritique, hnone]
    exact htne
  · exact Or.inl hp

theorem claim3_amended_nonempty_corrected_witness :
    ("hi there".toList : List Char) ≠ ([] : List Char) := by
  have h := claim3_amended_nonempty_corrected
    { file := some ⟨"uploads/f".toList⟩
      transcription := Except.ok (some ("hi there".toList))
      generation := Except.ok (some ("no markers here".toList))
      ttsSave := Except.ok ()
      readSynth := Except.ok ("AUDIO".toList)
      nodeEnv := "production".toList
      now := 8
      rand := "r4".toList }
    [] [("uploads/f".toList)] (some ("no markers here".toList)) rfl
    (findSub?_eq_none_iff.mp (by decide)) (by decide)
    (mkAnalysisId 8 ("r4".toList),
      { id := mkAnalysisId 8 ("r4".toList)
        transcript := "hi there".toList
        feedback := feedbackDefault
        correctedText := "hi there".toList
        audio := "AUDIO".toList
        timestamp := 8 })
    (by decide)
  rcases h with h | h
  · simp at h
  · exact h

/-- C5 fails on the code: when the read-back of the synthesized file throws
after the text-to-speech save created it, the catch block unlinks only the
uploaded file, and the synthesized temp file survives the request. -/
theorem claim5_counterexample :
    (runAnalyze
      { file := some ⟨"uploads/e".toList⟩
        transcription := Except.ok (some ("hello".toList))
        generation := Except.ok (some ("Feedback: f\nCorrected: Hello.".toList))
        ttsSave := Except.ok ()
        readSynth := Except.error ⟨none, "EIO: i o error, read".toList, none⟩
        nodeEnv := "production".toList
        now := 11
        rand := "r5".toList }
      [] [("uploads/e".toList)]).resp.status = 500 ∧
    synthPath (mkAnalysisId 11 ("r5".toList)) ∈
      (runAnalyze
        { file := some ⟨"uploads/e".toList⟩
          transcription := Except.ok (some ("hello".toList))
          generation := Except.ok (some ("Feedback: f\nCorrected: Hello.".toList))
          ttsSave := Except.ok ()
          readSynth := Except.error ⟨none, "EIO: i o error, read".toList, none⟩
          nodeEnv := "production".toList
          now := 11
          rand := "r5".toList }
        [] [("uploads/e".toList)]).disk := by
  decide

/-- C5 amended: on the success path the transient synthesized file is deleted
before the handler returns; on failure paths only the uploaded file is
unlinked, so a synthesized file that was already created may outlive the
request. -/
theorem claim5_amended_success_cleanup (inp : PipelineInput) (store : Store)
    (disk : List (List Char))
    (hstat : (runAnalyze inp store disk).resp.status = 200) :
    synthPath (mkAnalysisId inp.now inp.rand) ∉ (runAnalyze inp store disk).disk := by
  rcases hf : inp.file with _ | f
  · simp [runAnalyze, hf, Response.status] at hstat
  rcases htr : inp.transcription with e | tOpt
  · rw [runAnalyze] at hstat
    simp only [hf, htr] at hstat
    exact absurd hstat (classifyCatch_status_ne e inp.nodeEnv)
  rcases tOpt with _ | t
  · simp [runAnalyze, hf, htr, Response.status] at hstat
  by_cases hemp : trim t = []
  · simp [runAnalyze, hf, htr, hemp, Response.status] at hstat
  rcases hg : inp.generation with e | aiOpt
  · rw [runAnalyze] at hstat
    simp only [hf, htr, hg, if_neg hemp] at hstat
    exact absurd hstat (classifyCatch_status_ne e inp.nodeEnv)
  rcases hs : inp.ttsSave with e | u
  · rw [runAnalyze] at hstat
    simp only [hf, htr, hg, hs, if_neg hemp] at hstat
    exact absurd hstat (classifyCatch_status_ne e inp.nodeEnv)
  rcases hr : inp.readSynth with e | bytes
  · rw [runAnalyze] at hstat
    simp only [hf, htr, hg, hs, hr, if_neg hemp] at hstat
    exact absurd hstat (classifyCatch_status_ne e inp.nodeEnv)
  rw [runAnalyze]
  simp only [hf, htr, hg, hs, hr, if_neg hemp]
  exact notMem_removeFile_self _ _

theorem claim5_amended_success_cleanup_witness :
    synthPath (mkAnalysisId 12 ("r6".toList)) ∉
      (runAnalyze
        { file := some ⟨"uploads/g".toList⟩
          transcription := Except.ok (some ("hello".toList))
          generation := Except.ok (some ("Feedback: f\nCorrected: Hello.".toList))
          ttsSave := Except.ok ()
          readSynth := Except.ok ("AUDIO".toList)
          nodeEnv := "production".toList
          now := 12
          rand := "r6".toList }
        [] [("uploads/g".toList)]).disk := by
  exact claim5_amended_success_cleanup _ [] _ (by decide)

/-- C7: a record inserted at time t0 with a fresh id is returned by both the
result probe and the audio probe at any time strictly before t0 plus the one
hour retention window, is absent from both (404) at any probe at or after the
deadline once the due timer has fired, and exactly one pending deletion
timer for the id exists, due exactly at t0 plus the retention window. -/
theorem claim7_retention (s : TimedStore) (id : List Char) (rec : ResultRecord)
    (t0 t : Nat)
    (hent : ∀ p ∈ s.entries, p.1 ≠ id)
    (htim : ∀ tm ∈ s.timers, tm.key ≠ id)
    (haud : rec.audio ≠ []) :
    (t < t0 + retentionMs →
      getAnalysisAt (storePut s id rec t0) t id = some rec ∧
      getAudioAt (storePut s id rec t0) t id = some rec.audio) ∧
    (t0 + retentionMs ≤ t →
      getAnalysisAt (storePut s id rec t0) t id = none ∧
      getAudioAt (storePut s id rec t0) t id = none) ∧
    (storePut s id rec t0).timers.filter (fun tm => tm.key == id) =
      [⟨id, t0 + retentionMs⟩] := by
  have hauds : (rec.audio == ([] : List Char)) = false := beq_eq_false_iff_ne.mpr haud
  refine ⟨?_, ?_, ?_⟩
  · intro hlt
    have hdue : (decide (t0 + retentionMs ≤ t)) = false := by
      simp only [decide_eq_false_iff_not]
      omega
    have hanyold : (s.timers.any fun tm => tm.key == id && decide (tm.dueAt ≤ t)) = false := by
      rw [List.any_eq_false]
      intro tm htm
      have := htim tm htm
      simp [beq_eq_false_iff_ne.mpr this]
    have hkeep :
        (!((⟨id, t0 + retentionMs⟩ :: s.timers).any
            fun tm => tm.key == id && decide (tm.dueAt ≤ t))) = true := by
      simp only [List.any_cons, hdue, Bool.and_false, Bool.false_or, hanyold]
      rfl
    constructor
    · unfold getAnalysisAt expireDue storePut
      simp only [List.filter_cons]
      rw [if_pos hkeep]
      simp [List.lookup]
    · unfold getAudioAt expireDue storePut
      simp only [List.filter_cons]
      rw [if_pos hkeep]
      simp [List.lookup, hauds]
  · intro hge
    have hdue : (decide (t0 + retentionMs ≤ t)) = true := by
      simp only [decide_eq_true_eq]
      omega
    have hdrop :
        (!((⟨id, t0 + retentionMs⟩ :: s.timers).any
            fun tm => tm.key == id && decide (tm.dueAt ≤ t))) = false := by
      simp [List.any_cons, hdue]
    have hrest : ∀ q ∈ (storePut s id rec t0).entries.filter
        (fun p => !((storePut s id rec t0).timers.any
          fun tm => tm.key == p.1 && decide (tm.dueAt ≤ t))), q.1 ≠ id := by
      intro q hq
      have hqmem := List.mem_of_mem_filter hq
      simp only [storePut, List.mem_cons] at hqmem
      rcases hqmem with hq1 | hq1
      · exfalso
        have hqf := List.of_mem_filter hq
        rw [hq1] at hqf
        simp only [storePut] at hqf
        rw [hdrop] at hqf
        cases hqf
      · exact hent q hq1
    have hlook : ((expireDue (storePut s id rec t0) t).entries).lookup id = none := by
      apply lookup_eq_none_of_keys
      intro p hp
      exact hrest p hp
    constructor
    · unfold getAnalysisAt
      exact hlook
    · unfold getAudioAt
      rw [hlook]
  · simp only [storePut, List.filter_cons, beq_self_eq_true, if_pos]
    have : s.timers.filter (fun tm => tm.key == id) = [] := by
      rw [List.filter_eq_nil_iff]
      intro tm htm
      simp [beq_eq_false_iff_ne.mpr (htim tm htm)]
    rw [this]

theorem claim7_retention_witness :
    getAnalysisAt
      (storePut ⟨[], []⟩ ("analysis_1_ab".toList)
        { id := "analysis_1_ab".toList
          transcript := "hi".toList
          feedback := feedbackDefault
          correctedText := "hi".toList
          audio := "A".toList
          timestamp := 0 } 0)
      3599999 ("analysis_1_ab".toList) =
      some
        { id := "analysis_1_ab".toList
          transcript := "hi".toList
          feedback := feedbackDefault
          correctedText := "hi".toList
          audio := "A".toList
          timestamp := 0 } ∧
    getAnalysisAt
      (storePut ⟨[], []⟩ ("analysis_1_ab".toList)
        { id := "analysis_1_ab".toList
          transcript := "hi".toList
          feedback := feedbackDefault
          correctedText := "hi".toList
          audio := "A".toList
          timestamp := 0 } 0)
      3600000 ("analysis_1_ab".toList) = none := by
  have h := claim7_retention ⟨[], []⟩ ("analysis_1_ab".toList)
    { id := "analysis_1_ab".toList
      transcript := "hi".toList
      feedback := feedbackDefault
      correctedText := "hi".toList
      audio := "A".toList
      timestamp := 0 } 0 3599999
    (by intro p hp; cases hp) (by intro tm htm; cases htm) (by decide)
  have h2 := claim7_retention ⟨[], []⟩ ("analysis_1_ab".toList)
    { id := "analysis_1_ab".toList
      transcript := "hi".toList
      feedback := feedbackDefault
      correctedText := "hi".toList
      audio := "A".toList
      timestamp := 0 } 0 3600000
    (by intro p hp; cases hp) (by intro tm htm; cases htm) (by decide)
  exact ⟨(h.1 (by decide)).1, (h2.2.1 (by decide)).1⟩

/-- Spec wording of the feedback capture, for comparison with the code:
capture everything after the case-insensitive Feedback: marker up to the next
case-insensitive Corrected: marker or end of text, and trim it. -/
def specClaimedFeedback (aiText : List Char) : List Char :=
  match findSub? (lower aiText) fbPat with
  | none => feedbackDefault
  | some i =>
    let afterMarker := aiText.drop (i + fbPat.length)
    match findSub? (lower afterMarker) ctPat with
    | none => trim afterMarker
    | some k => trim (afterMarker.take k)

/-- Amended wording of the feedback capture, matching the regex lookahead of
line 156: after the case-insensitive Feedback: marker and the whitespace run
that follows it, capture up to the first newline immediately followed by a
case-insensitive Corrected: marker, or to end of text, and trim. -/
def specAmendedFeedback (aiText : List Char) : List Char :=
  match findSub? (lower aiText) fbPat with
  | none => feedbackDefault
  | some i =>
    let body := (aiText.drop (i + fbPat.length)).dropWhile isWs
    match findSub? (lower body) nlCtPat with
    | none => trim body
    | some k => trim (body.take k)

/-- C1 fails on the code: in the output Feedback: a Corrected: b the
Corrected: marker is not preceded by a newline, so the code captures the
whole tail as feedback, while the claimed policy (capture up to the next
Corrected: marker) would capture only the part before the marker. -/
theorem claim1_counterexample :
    (parseCritique ("Feedback: a Corrected: b".toList) ("t".toList)).feedback =
      "a Corrected: b".toList ∧
    specClaimedFeedback ("Feedback: a Corrected: b".toList) = "a".toList ∧
    (parseCritique ("Feedback: a Corrected: b".toList) ("t".toList)).feedback ≠
      specClaimedFeedback ("Feedback: a Corrected: b".toList) := by
  decide

/-- C1 amended: when the output contains both markers, the stored feedback is
the trimmed capture that ends at the first newline-preceded Corrected: marker
after the whitespace run following Feedback: (or at end of text), and the
stored correctedText is the trimmed text from the first case-insensitive
Corrected: marker to end of text. -/
theorem claim1_amended_parse (aiText transcript : List Char) (i j : Nat)
    (hfb : findSub? (lower aiText) fbPat = some i)
    (hct : findSub? (lower aiText) ctPat = some j) :
    (parseCritique aiText transcript).feedback = specAmendedFeedback aiText ∧
    (parseCritique aiText transcript).correctedText =
      trim (aiText.drop (j + ctPat.length)) := by
  constructor
  · simp only [parseCritique, specAmendedFeedback, hfb]
    cases hk : findSub? (lower ((aiText.drop (i + fbPat.length)).dropWhile isWs)) nlCtPat with
    | none => simp [List.take_length]
    | some k => simp
  · simp only [parseCritique, hct]
    exact trim_dropWhile_ws _

theorem claim1_amended_parse_witness :
    (parseCritique ("Feedback: a\nCorrected: b".toList) ("t".toList)).feedback =
      specAmendedFeedback ("Feedback: a\nCorrected: b".toList) ∧
    (parseCritique ("Feedback: a\nCorrected: b".toList) ("t".toList)).correctedText =
      trim (("Feedback: a\nCorrected: b".toList).drop (12 + ctPat.length)) := by
  exact claim1_amended_parse _ _ 0 12 (by decide) (by decide)

/-- The first regex marker matches at position 0 of any output that starts
with the Feedback: literal. -/
theorem findSub?_feedback_marker_zero (r : List Char) :
    findSub? (lower ("Feedback: ".toList ++ r)) fbPat = some 0 := by
  apply findSub?_of_isPrefixOf
  rw [ List.isPrefixOf_iff_prefix]
  have hsplit : lower ("Feedback: ".toList ++ r) =
      "feedback: ".toList ++ lower r := by
    unfold lower
    rw [List.map_append]
    rfl
  rw [hsplit]
  exact List.IsPrefix.trans (by decide) (List.prefix_append _ _)

/-- C10: the feedback capture stops at a Corrected: marker only when a
newline immediately precedes it.  With no newline anywhere, the marker is
included verbatim in the stored feedback (the whole tail is captured) while
the corrected capture still starts at that marker; with the newline, the
feedback capture stops right before it. -/
theorem claim10_newline_terminator (a b transcript : List Char)
    (hna : nlChar ∉ a) (hnb : nlChar ∉ b)
    (hnw : ∃ c ∈ a, isWs c = false)
    (hfirst :
      findSub? (lower ("Feedback: ".toList ++ (a ++ ("Corrected: ".toList ++ b)))) ctPat =
        some (10 + a.length)) :
    ((parseCritique ("Feedback: ".toList ++ (a ++ ("Corrected: ".toList ++ b)))
        transcript).feedback = trim (a ++ ("Corrected: ".toList ++ b)) ∧
      (parseCritique ("Feedback: ".toList ++ (a ++ ("Corrected: ".toList ++ b)))
        transcript).correctedText = trim b) ∧
    (parseCritique ("Feedback: ".toList ++ (a ++ ("\nCorrected: ".toList ++ b)))
        transcript).feedback = trim a := by
  have hsp : isWs (Char.ofNat 32) = true := by decide
  have hdropX : ∀ r : List Char,
      ("Feedback: ".toList ++ r).drop (0 + fbPat.length) = Char.ofNat 32 :: r := by
    intro r
    have h1 : ("Feedback: ".toList ++ r) =
        "Feedback:".toList ++ (Char.ofNat 32 :: r) := by
      have : ("Feedback: ".toList : List Char) =
          "Feedback:".toList ++ [Char.ofNat 32] := by decide
      rw [this, List.append_assoc]
      rfl
    rw [h1]
    exact List.drop_left' (by decide)
  constructor
  · constructor
    · -- feedback of the newline-free output: the lookahead never fires
      rw [parseCritique]
      simp only [findSub?_feedback_marker_zero, hfirst, hdropX]
      rw [List.dropWhile_cons_of_pos hsp]
      have hnl : nlChar ∉ (a ++ ("Corrected: ".toList ++ b)).dropWhile isWs := by
        intro hmem
        have hmem2 := (List.dropWhile_sublist isWs).subset hmem
        rcases List.mem_append.mp hmem2 with h1 | h1
        · exact hna h1
        rcases List.mem_append.mp h1 with h2 | h2
        · exact absurd h2 (by decide)
        · exact hnb h2
      have hnone : findSub?
          (lower ((a ++ ("Corrected: ".toList ++ b)).dropWhile isWs)) nlCtPat = none := by
        apply findSub?_eq_none_of_head_notMem (c := nlChar)
          (show nlCtPat.head? = some nlChar from rfl)
        intro hmem
        exact hnl (nl_mem_of_mem_lower hmem)
      rw [hnone]
      rw [List.take_length]
      exact trim_dropWhile_ws _
    · -- corrected capture of the newline-free output starts at the marker
      rw [parseCritique]
      simp only [findSub?_feedback_marker_zero, hfirst]
      have hre : ("Feedback: ".toList ++ (a ++ ("Corrected: ".toList ++ b))) =
          ("Feedback: ".toList ++ (a ++ "Corrected:".toList)) ++
            (Char.ofNat 32 :: b) := by
        have hcs : ("Corrected: ".toList : List Char) =
            "Corrected:".toList ++ [Char.ofNat 32] := by decide
        rw [hcs]
        simp [List.append_assoc]
      rw [hre]
      have hlen : ("Feedback: ".toList ++ (a ++ "Corrected:".toList)).length =
          10 + a.length + ctPat.length := by
        have h1 : ("Feedback: ".toList : List Char).length = 10 := by decide
        have h2 : ("Corrected:".toList : List Char).length = 10 := by decide
        have h3 : ctPat.length = 10 := by decide
        simp only [List.length_append, h1, h2, h3]
        omega
      rw [List.drop_left' hlen]
      rw [List.dropWhile_cons_of_pos hsp]
      exact trim_dropWhile_ws _
  · -- feedback of the newline output stops at the newline
    rw [parseCritique]
    simp only [findSub?_feedback_marker_zero, hdropX]
    rw [List.dropWhile_cons_of_pos hsp]
    have hsplitb : (a ++ ("\nCorrected: ".toList ++ b)).dropWhile isWs =
        (a.dropWhile isWs) ++ ("\nCorrected: ".toList ++ b) :=
      dropWhile_append_of_exists hnw
    rw [hsplitb]
    have hlow : lower ((a.dropWhile isWs) ++ ("\nCorrected: ".toList ++ b)) =
        lower (a.dropWhile isWs) ++ lower ("\nCorrected: ".toList ++ b) := by
      unfold lower
      rw [List.map_append]
    have hfound : findSub?
        (lower ((a.dropWhile isWs) ++ ("\nCorrected: ".toList ++ b))) nlCtPat =
        some ((lower (a.dropWhile isWs)).length) := by
      rw [hlow]
      apply findSub?_append_marker (c := nlChar)
        (show nlCtPat.head? = some nlChar from rfl)
      · intro ch hch
        apply notMem_lower_of_nl_notMem _ ch hch
        intro hmem
        exact hna ((List.dropWhile_sublist isWs).subset hmem)
      · rw [ List.isPrefixOf_iff_prefix]
        have hlow2 : lower ("\nCorrected: ".toList ++ b) =
            "\ncorrected: ".toList ++ lower b := by
          unfold lower
          rw [List.map_append]
          rfl
        rw [hlow2]
        exact List.IsPrefix.trans (by decide) (List.prefix_append _ _)
    rw [hfound]
    have hlenlow : (lower (a.dropWhile isWs)).length = (a.dropWhile isWs).length := by
      unfold lower
      rw [List.length_map]
    rw [hlenlow, List.take_left' rfl]
    exact trim_dropWhile_ws _

theorem claim10_newline_terminator_witness :
    ((parseCritique ("Feedback: ".toList ++ ("good ".toList ++ ("Corrected: ".toList ++ "He went.".toList)))
        ("t".toList)).feedback =
      trim ("good ".toList ++ ("Corrected: ".toList ++ "He went.".toList)) ∧
      (parseCritique ("Feedback: ".toList ++ ("good ".toList ++ ("Corrected: ".toList ++ "He went.".toList)))
        ("t".toList)).correctedText = trim ("He went.".toList)) ∧
    (parseCritique ("Feedback: ".toList ++ ("good ".toList ++ ("\nCorrected: ".toList ++ "He went.".toList)))
        ("t".toList)).feedback = trim ("good ".toList) := by
  exact claim10_newline_terminator ("good ".toList) ("He went.".toList) ("t".toList)
    (by decide) (by decide) (by decide) (by decide)

end SpeechCraft
